import Mathlib

/-!
# Notification retention: the purge cycle and its background loop

A shallow embedding of `internal/support/notifications/application/notification.go`
(`purgeNotification`, `AsyncPurgeNotification`) together with the properties the
specification states about them.

Conventions of the embedding

* The Go type `int64` is `Int` with an explicit wrap to the signed 64-bit range where the
  source does arithmetic (`age := now - notification.Modified`).
* The Go `uint32` counts (`total`, `MaxCap`, `MinCap`) are `Nat`; the source only
  compares them and passes them on, so no wrap is involved.
* The storage client (`interfaces.DBClient`) is an interface: it is a record of
  state-passing functions over an arbitrary state type `σ`, so that a theorem
  quantified over `DBClient σ` speaks about every gateway behaviour.
* Every call a cycle makes on the storage client is appended to a ghost trace,
  together with what the client answered.
* `time.Now().UnixMilli()` is the parameter `now` of a cycle.
-/

namespace Notifications

/-! ## Errors (`go-mod-core-contracts/errors`) -/

/-- The type `errors.ErrKind` is a Go string type. -/
abbrev ErrKind := String

/-- The interface `errors.EdgeX` as implemented by `CommonEdgeX`: a kind, a message and
possibly a wrapped error. A Go `nil` error is `none : Option EdgeX`. -/
inductive EdgeX where
  | leaf (kind : ErrKind) (message : String)
  | wrapping (kind : ErrKind) (message : String) (err : EdgeX)
  deriving DecidableEq, Repr

/-- The function `errors.Kind(err)` for an `errors.EdgeX` value. -/
def Kind : EdgeX → ErrKind
  | .leaf k _ => k
  | .wrapping k _ _ => k

/-- The constructor `errors.NewCommonEdgeX(kind, message, wrappedError)`; never `nil`. -/
def NewCommonEdgeX (kind : ErrKind) (message : String) (wrappedError : Option EdgeX) : EdgeX :=
  match wrappedError with
  | none => .leaf kind message
  | some e => .wrapping kind message e

/-! ## Data model -/

/-- The model `models.Notification`, reduced to the identity and the one field the purge
cycle reads (`Modified`, epoch milliseconds, `int64`). -/
structure Notification where
  Id : String
  Modified : Int
  deriving DecidableEq, Repr

/-- The section `config.Retention`: the two capacities read by `purgeNotification`. -/
structure RetentionInfo where
  MaxCap : Nat
  MinCap : Nat
  deriving DecidableEq, Repr

/-- Wrap of an integer to the signed 64-bit range of Go (two-complement). -/
def wrapInt64 (x : Int) : Int :=
  (x + 2 ^ 63) % 2 ^ 64 - 2 ^ 63

/-- The part of `interfaces.DBClient` that the purge cycle uses, as
state-passing functions over the store state `σ`. -/
structure DBClient (σ : Type) where
  NotificationTotalCount : σ → Except EdgeX Nat × σ
  LatestNotificationByOffset : Nat → σ → Except EdgeX Notification × σ
  CleanupNotificationsByAge : Int → σ → Option EdgeX × σ

/-- What `dic.Get` resolves for the purge cycle: the storage client and the
service configuration. -/
structure Container (σ : Type) where
  dbClient : DBClient σ
  config : RetentionInfo

/-- One call on the storage client together with the client's answer. -/
inductive Call where
  | totalCount (res : Except EdgeX Nat)
  | latestByOffset (offset : Nat) (res : Except EdgeX Notification)
  | cleanupByAge (age : Int) (err : Option EdgeX)

/-- The call is a `CleanupNotificationsByAge` call. -/
def Call.isCleanup : Call → Bool
  | .cleanupByAge _ _ => true
  | _ => false

/-- The call is a `LatestNotificationByOffset` call. -/
def Call.isLatestByOffset : Call → Bool
  | .latestByOffset _ _ => true
  | _ => false

/-- The call is a `NotificationTotalCount` call. -/
def Call.isTotalCount : Call → Bool
  | .totalCount _ => true
  | _ => false

/-- The storage client answered the call with a non-nil error. -/
def Call.failed : Call → Bool
  | .totalCount (.error _) => true
  | .totalCount (.ok _) => false
  | .latestByOffset _ (.error _) => true
  | .latestByOffset _ (.ok _) => false
  | .cleanupByAge _ e => e.isSome

/-- The calls on the storage client that change the store. -/
def Call.mutating : Call → Bool := Call.isCleanup

/-- The ages passed to `CleanupNotificationsByAge`, in call order. -/
def cleanupAges : List Call → List Int
  | [] => []
  | .cleanupByAge age _ :: cs => age :: cleanupAges cs
  | _ :: cs => cleanupAges cs

/-- Outcome of one cycle: the returned error, the calls made on the storage
client in order, and the store state afterwards. -/
structure PurgeResult (σ : Type) where
  err : Option EdgeX
  calls : List Call
  store : σ

/-! ## `purgeNotification` -/

/-- One cycle of `purgeNotification(dic)`, with `now` the value of
`time.Now().UnixMilli()` read after the boundary lookup. The `lc.Debugf` line
before the lookup touches neither the store nor the result and is left out. -/
def purgeNotification {σ : Type} (dic : Container σ) (now : Int) (s : σ) : PurgeResult σ :=
  let dbClient := dic.dbClient
  let config := dic.config
  match dbClient.NotificationTotalCount s with
  | (.error err, s1) =>
    { err := some (NewCommonEdgeX (Kind err) "failed to query notification total count, %v" (some err))
      calls := [.totalCount (.error err)]
      store := s1 }
  | (.ok total, s1) =>
    if total ≥ config.MaxCap then
      match dbClient.LatestNotificationByOffset config.MinCap s1 with
      | (.error err, s2) =>
        { err := some (NewCommonEdgeX (Kind err)
            ("failed to query notification with offset '" ++ toString config.MinCap ++ "'") (some err))
          calls := [.totalCount (.ok total), .latestByOffset config.MinCap (.error err)]
          store := s2 }
      | (.ok notification, s2) =>
        let age := wrapInt64 (now - notification.Modified)
        match dbClient.CleanupNotificationsByAge age s2 with
        | (some err, s3) =>
          { err := some (NewCommonEdgeX (Kind err)
              ("failed to delete notifications and transmissions by age '" ++ toString age ++ "'")
              (some err))
            calls := [.totalCount (.ok total), .latestByOffset config.MinCap (.ok notification),
                      .cleanupByAge age (some err)]
            store := s3 }
        | (none, s3) =>
          { err := none
            calls := [.totalCount (.ok total), .latestByOffset config.MinCap (.ok notification),
                      .cleanupByAge age none]
            store := s3 }
    else
      { err := none
        calls := [.totalCount (.ok total)]
        store := s1 }

/-! ## A scripted storage client, for concrete scenarios -/

/-- Storage client whose three answers are fixed in advance and whose state is
the list of ages it was asked to clean up. -/
def scriptedClient (count : Except EdgeX Nat) (latest : Nat → Except EdgeX Notification)
    (cleanup : Int → Option EdgeX) : DBClient (List Int) where
  NotificationTotalCount := fun s => (count, s)
  LatestNotificationByOffset := fun offset s => (latest offset, s)
  CleanupNotificationsByAge := fun age s => (cleanup age, s ++ [age])

/-! ## The background loop of `AsyncPurgeNotification` -/

/-- What the `select` of the loop receives: the `Done` channel of the context or
the channel of the timer (with the clock value the cycle then reads). -/
inductive LoopEvent where
  | ctxDone
  | timerFired (now : Int)
  deriving DecidableEq, Repr

/-- The goroutine is inside its `for` loop, or it has returned. -/
inductive LoopStatus where
  | running
  | exited
  deriving DecidableEq, Repr

/-- Lines written by the loop through the logging client. -/
inductive LogLine where
  | info (message : String)
  | error (format : String) (err : EdgeX)
  deriving DecidableEq, Repr

/-- State of the goroutine: its status, the store behind the storage client,
the number of `purgeNotification` invocations so far (ghost counter) and the
log. -/
structure LoopState (σ : Type) where
  status : LoopStatus
  store : σ
  cycles : Nat
  log : List LogLine

/-- One iteration of the `for { select { ... } }` loop on the event received.
A goroutine that has returned receives nothing any more. In the timer branch
the `break` after `lc.Errorf` leaves the `select` only, so both outcomes of the
cycle go round the `for` again. -/
def loopStep {σ : Type} (dic : Container σ) (st : LoopState σ) (ev : LoopEvent) : LoopState σ :=
  match st.status with
  | .exited => st
  | .running =>
    match ev with
    | .ctxDone =>
      { st with status := .exited, log := st.log ++ [.info "Exiting notification retention"] }
    | .timerFired now =>
      match purgeNotification dic now st.store with
      | ⟨some err, _, store⟩ =>
        { status := .running, store := store, cycles := st.cycles + 1
          log := st.log ++ [.error "Failed to purge notifications and transmissions, %v" err] }
      | ⟨none, _, store⟩ =>
        { status := .running, store := store, cycles := st.cycles + 1, log := st.log }

/-- The loop run over a sequence of events. -/
def runLoop {σ : Type} (dic : Container σ) (st : LoopState σ) (evs : List LoopEvent) : LoopState σ :=
  evs.foldl (loopStep dic) st

/-! ## `asyncPurgeNotificationOnce` and the calls of `AsyncPurgeNotification` -/

/-- Arguments of one `AsyncPurgeNotification(interval, ctx, dic)` call; the
context is named by a number, the container is of any type `δ`. -/
structure StartArgs (δ : Type) where
  interval : Int
  ctx : Nat
  dic : δ

/-- A goroutine launched by the body given to `asyncPurgeNotificationOnce.Do`,
with the arguments its closure captured. -/
structure Goroutine (δ : Type) where
  args : StartArgs δ
  status : LoopStatus

/-- Process state: the `done` flag of the package-level `sync.Once` and the
goroutines launched so far. -/
structure Process (δ : Type) where
  onceDone : Bool
  goroutines : List (Goroutine δ)

/-- Process state at start-up: the zero `sync.Once`, no goroutine. -/
def Process.init (δ : Type) : Process δ :=
  { onceDone := false, goroutines := [] }

/-- The function `AsyncPurgeNotification(interval, ctx, dic)`: `Once.Do` runs its body, which
launches the goroutine, only while the flag is unset, and sets the flag. -/
def AsyncPurgeNotification {δ : Type} (args : StartArgs δ) (p : Process δ) : Process δ :=
  if p.onceDone then p
  else { onceDone := true, goroutines := p.goroutines ++ [{ args := args, status := .running }] }

/-- What happens in the process: a call of `AsyncPurgeNotification`, or a
context is cancelled and every loop selecting on it takes its `Done` branch. -/
inductive ProcEvent (δ : Type) where
  | call (args : StartArgs δ)
  | cancel (ctx : Nat)

/-- One process event. -/
def procStep {δ : Type} (p : Process δ) : ProcEvent δ → Process δ
  | .call args => AsyncPurgeNotification args p
  | .cancel ctx =>
    { onceDone := p.onceDone
      goroutines := p.goroutines.map
        (fun g => if g.args.ctx = ctx then { args := g.args, status := .exited } else g) }

/-- The process run over a sequence of events. -/
def runProcess {δ : Type} (p : Process δ) (evs : List (ProcEvent δ)) : Process δ :=
  evs.foldl procStep p

/-- Arguments of the first `AsyncPurgeNotification` call in a sequence. -/
def firstCall {δ : Type} : List (ProcEvent δ) → Option (StartArgs δ)
  | [] => none
  | .call args :: _ => some args
  | .cancel _ :: evs => firstCall evs

/-! ## The reference storage gateway -/

/-- The value is in the range of Go's `int64`. -/
def IsInt64 (x : Int) : Prop := -2 ^ 63 ≤ x ∧ x < 2 ^ 63

instance (x : Int) : Decidable (IsInt64 x) := by
  unfold IsInt64
  infer_instance

/-- State of the reference gateway: the live records, in any order, and the
clock the gateway reads as `now`. -/
structure RefStore where
  records : List Notification
  clock : Int
  deriving DecidableEq, Repr

/-- Record `a` ranks before record `b` in newest-first order. -/
def newerEq (a b : Notification) : Prop := b.Modified ≤ a.Modified

instance : DecidableRel newerEq := fun a b => inferInstanceAs (Decidable (b.Modified ≤ a.Modified))

instance : IsTotal Notification newerEq := ⟨fun a b => le_total b.Modified a.Modified⟩

instance : IsTrans Notification newerEq := ⟨fun _ _ _ hab hbc => le_trans hbc hab⟩

/-- The records ranked newest-first by `Modified`. -/
def newestFirst (records : List Notification) : List Notification :=
  records.insertionSort newerEq

/-- Modelled from the spec: the storage gateway of section 4.2, whose
implementation (`interfaces.DBClient`) is not part of the sources.
`TotalCount` is the number of live records; `RecordAtOffsetFromNewest(offset)`
is the record `offset` positions back from the most recently modified one
(0 = newest) and fails when there is none; `CleanupByAge(ageMs)` deletes every
record whose `(now - Modified) >= ageMs`. -/
def referenceGateway : DBClient RefStore where
  NotificationTotalCount := fun s => (.ok s.records.length, s)
  LatestNotificationByOffset := fun offset s =>
    match (newestFirst s.records)[offset]? with
    | some n => (.ok n, s)
    | none => (.error (.leaf "NotFound" "no record at the offset"), s)
  CleanupNotificationsByAge := fun age s =>
    (none, { records := s.records.filter (fun r => ¬ (s.clock - r.Modified ≥ age)),
             clock := s.clock })

/-- The boundary record of a store under a policy: the record at offset
`MinCap` from newest. -/
def boundaryRecord (config : RetentionInfo) (s : RefStore) : Option Notification :=
  (newestFirst s.records)[config.MinCap]?

/-- Store of the reference gateway after one cycle read at the clock of the
gateway. -/
def storeAfterCycle (config : RetentionInfo) (s : RefStore) : RefStore :=
  (purgeNotification ⟨referenceGateway, config⟩ s.clock s).store

/-- A store of `n` records modified at `1000, 1001, ...`, read at clock 5000. -/
def sampleStore (n : Nat) : RefStore :=
  { records := (List.range n).map (fun i => { Id := "n", Modified := 1000 + (i : Int) })
    clock := 5000 }

/-! ## The query operations -/

/-- The constant `errors.KindContractInvalid`. -/
def KindContractInvalid : ErrKind := "ContractInvalid"

/-- The constructor `errors.NewCommonEdgeXWrapper(wrappedError)`: the kind of the
wrapped error, an empty message. -/
def NewCommonEdgeXWrapper (wrappedError : EdgeX) : EdgeX :=
  .wrapping (Kind wrappedError) "" wrappedError

/-- The model `models.Subscription`, reduced to the two fields read by
`NotificationsBySubscriptionName`. -/
structure Subscription where
  Categories : List String
  Labels : List String
  deriving DecidableEq, Repr

/-- The part of `interfaces.DBClient` that the query operations use, as
state-passing functions over the store state `σ`. A list query answers with
the models or an error; a count query answers with both a count and a possibly
nil error, as the caller hands the count on in either case. -/
structure QueryDBClient (σ : Type) where
  NotificationsByCategory : Int → Int → String → σ → Except EdgeX (List Notification) × σ
  NotificationCountByCategory : String → σ → (Nat × Option EdgeX) × σ
  NotificationsByLabel : Int → Int → String → σ → Except EdgeX (List Notification) × σ
  NotificationCountByLabel : String → σ → (Nat × Option EdgeX) × σ
  NotificationsByStatus : Int → Int → String → σ → Except EdgeX (List Notification) × σ
  NotificationCountByStatus : String → σ → (Nat × Option EdgeX) × σ
  NotificationsByTimeRange : Int → Int → Int → Int → σ → Except EdgeX (List Notification) × σ
  NotificationCountByTimeRange : Int → Int → σ → (Nat × Option EdgeX) × σ
  NotificationById : String → σ → Except EdgeX Notification × σ
  DeleteNotificationById : String → σ → Option EdgeX × σ
  SubscriptionByName : String → σ → Except EdgeX Subscription × σ
  NotificationsByCategoriesAndLabels :
    Int → Int → List String → List String → σ → Except EdgeX (List Notification) × σ
  NotificationCountByCategoriesAndLabels :
    List String → List String → σ → (Nat × Option EdgeX) × σ

/-- One call of a query operation on the storage client, with its arguments. -/
inductive QueryCall where
  | notificationsByCategory (offset limit : Int) (category : String)
  | notificationCountByCategory (category : String)
  | notificationsByLabel (offset limit : Int) (label : String)
  | notificationCountByLabel (label : String)
  | notificationsByStatus (offset limit : Int) (status : String)
  | notificationCountByStatus (status : String)
  | notificationsByTimeRange (start end_ offset limit : Int)
  | notificationCountByTimeRange (start end_ : Int)
  | notificationById (id : String)
  | deleteNotificationById (id : String)
  | subscriptionByName (name : String)
  | notificationsByCategoriesAndLabels (offset limit : Int) (categories labels : List String)
  | notificationCountByCategoriesAndLabels (categories labels : List String)
  deriving DecidableEq, Repr

/-- The call is one of the count queries. -/
def QueryCall.isCount : QueryCall → Bool
  | .notificationCountByCategory _ => true
  | .notificationCountByLabel _ => true
  | .notificationCountByStatus _ => true
  | .notificationCountByTimeRange _ _ => true
  | .notificationCountByCategoriesAndLabels _ _ => true
  | _ => false

/-- Outcome of a list operation: the three results of the Go function, the
calls made on the storage client in order, and the store state afterwards.
The nil slice is the empty list. -/
structure ListResult (D σ : Type) where
  notifications : List D
  totalCount : Nat
  err : Option EdgeX
  calls : List QueryCall
  store : σ

/-- Outcome of `NotificationById`. -/
structure ByIdResult (D σ : Type) where
  notification : D
  edgeXerr : Option EdgeX
  calls : List QueryCall
  store : σ

/-- Outcome of `DeleteNotificationById`. -/
structure DeleteResult (σ : Type) where
  err : Option EdgeX
  calls : List QueryCall
  store : σ

/-- The function `NotificationsByCategory(offset, limit, category, dic)`, with the
DTO conversion `dtos.FromNotificationModelToDTO` as a parameter. -/
def NotificationsByCategory {D σ : Type} (FromNotificationModelToDTO : Notification → D)
    (dbClient : QueryDBClient σ) (offset limit : Int) (category : String) (s : σ) :
    ListResult D σ :=
  if category = "" then
    { notifications := [], totalCount := 0
      err := some (NewCommonEdgeX KindContractInvalid "category is empty" none)
      calls := [], store := s }
  else
    match dbClient.NotificationsByCategory offset limit category s with
    | (.error err, s1) =>
      { notifications := [], totalCount := 0, err := some (NewCommonEdgeXWrapper err)
        calls := [.notificationsByCategory offset limit category], store := s1 }
    | (.ok notificationModels, s1) =>
      match dbClient.NotificationCountByCategory category s1 with
      | ((totalCount, some err), s2) =>
        { notifications := [], totalCount := totalCount, err := some (NewCommonEdgeXWrapper err)
          calls := [.notificationsByCategory offset limit category,
                    .notificationCountByCategory category]
          store := s2 }
      | ((totalCount, none), s2) =>
        { notifications := notificationModels.map FromNotificationModelToDTO
          totalCount := totalCount, err := none
          calls := [.notificationsByCategory offset limit category,
                    .notificationCountByCategory category]
          store := s2 }

/-- The function `NotificationsByLabel(offset, limit, label, dic)`. -/
def NotificationsByLabel {D σ : Type} (FromNotificationModelToDTO : Notification → D)
    (dbClient : QueryDBClient σ) (offset limit : Int) (label : String) (s : σ) :
    ListResult D σ :=
  if label = "" then
    { notifications := [], totalCount := 0
      err := some (NewCommonEdgeX KindContractInvalid "label is empty" none)
      calls := [], store := s }
  else
    match dbClient.NotificationsByLabel offset limit label s with
    | (.error err, s1) =>
      { notifications := [], totalCount := 0, err := some (NewCommonEdgeXWrapper err)
        calls := [.notificationsByLabel offset limit label], store := s1 }
    | (.ok notificationModels, s1) =>
      match dbClient.NotificationCountByLabel label s1 with
      | ((totalCount, some err), s2) =>
        { notifications := [], totalCount := totalCount, err := some (NewCommonEdgeXWrapper err)
          calls := [.notificationsByLabel offset limit label, .notificationCountByLabel label]
          store := s2 }
      | ((totalCount, none), s2) =>
        { notifications := notificationModels.map FromNotificationModelToDTO
          totalCount := totalCount, err := none
          calls := [.notificationsByLabel offset limit label, .notificationCountByLabel label]
          store := s2 }

/-- The function `NotificationById(id, dic)`, with `uuid.Parse` reduced to the
error it returns, if any, and `default` the zero value of the DTO. -/
def NotificationById {D σ : Type} [Inhabited D] (FromNotificationModelToDTO : Notification → D)
    (uuidParse : String → Option EdgeX) (dbClient : QueryDBClient σ) (id : String) (s : σ) :
    ByIdResult D σ :=
  if id = "" then
    { notification := default
      edgeXerr := some (NewCommonEdgeX KindContractInvalid "ID is empty" none)
      calls := [], store := s }
  else
    match uuidParse id with
    | some err =>
      { notification := default
        edgeXerr := some (NewCommonEdgeX KindContractInvalid "ID is not a valid UUID" (some err))
        calls := [], store := s }
    | none =>
      match dbClient.NotificationById id s with
      | (.error edgeXerr, s1) =>
        { notification := default, edgeXerr := some (NewCommonEdgeXWrapper edgeXerr)
          calls := [.notificationById id], store := s1 }
      | (.ok notificationModel, s1) =>
        { notification := FromNotificationModelToDTO notificationModel, edgeXerr := none
          calls := [.notificationById id], store := s1 }

/-- The function `NotificationsByStatus(offset, limit, status, dic)`. -/
def NotificationsByStatus {D σ : Type} (FromNotificationModelToDTO : Notification → D)
    (dbClient : QueryDBClient σ) (offset limit : Int) (status : String) (s : σ) :
    ListResult D σ :=
  if status = "" then
    { notifications := [], totalCount := 0
      err := some (NewCommonEdgeX KindContractInvalid "status is empty" none)
      calls := [], store := s }
  else
    match dbClient.NotificationsByStatus offset limit status s with
    | (.error err, s1) =>
      { notifications := [], totalCount := 0, err := some (NewCommonEdgeXWrapper err)
        calls := [.notificationsByStatus offset limit status], store := s1 }
    | (.ok notificationModels, s1) =>
      match dbClient.NotificationCountByStatus status s1 with
      | ((totalCount, some err), s2) =>
        { notifications := [], totalCount := totalCount, err := some (NewCommonEdgeXWrapper err)
          calls := [.notificationsByStatus offset limit status, .notificationCountByStatus status]
          store := s2 }
      | ((totalCount, none), s2) =>
        { notifications := notificationModels.map FromNotificationModelToDTO
          totalCount := totalCount, err := none
          calls := [.notificationsByStatus offset limit status, .notificationCountByStatus status]
          store := s2 }

/-- The function `NotificationsByTimeRange(start, end, offset, limit, dic)`. -/
def NotificationsByTimeRange {D σ : Type} (FromNotificationModelToDTO : Notification → D)
    (dbClient : QueryDBClient σ) (start end_ offset limit : Int) (s : σ) : ListResult D σ :=
  match dbClient.NotificationsByTimeRange start end_ offset limit s with
  | (.error err, s1) =>
    { notifications := [], totalCount := 0, err := some (NewCommonEdgeXWrapper err)
      calls := [.notificationsByTimeRange start end_ offset limit], store := s1 }
  | (.ok notificationModels, s1) =>
    match dbClient.NotificationCountByTimeRange start end_ s1 with
    | ((totalCount, some err), s2) =>
      { notifications := [], totalCount := totalCount, err := some (NewCommonEdgeXWrapper err)
        calls := [.notificationsByTimeRange start end_ offset limit,
                  .notificationCountByTimeRange start end_]
        store := s2 }
    | ((totalCount, none), s2) =>
      { notifications := notificationModels.map FromNotificationModelToDTO
        totalCount := totalCount, err := none
        calls := [.notificationsByTimeRange start end_ offset limit,
                  .notificationCountByTimeRange start end_]
        store := s2 }

/-- The function `DeleteNotificationById(id, dic)`. -/
def DeleteNotificationById {σ : Type} (dbClient : QueryDBClient σ) (id : String) (s : σ) :
    DeleteResult σ :=
  if id = "" then
    { err := some (NewCommonEdgeX KindContractInvalid "id is empty" none), calls := [], store := s }
  else
    match dbClient.DeleteNotificationById id s with
    | (some err, s1) =>
      { err := some (NewCommonEdgeXWrapper err), calls := [.deleteNotificationById id], store := s1 }
    | (none, s1) =>
      { err := none, calls := [.deleteNotificationById id], store := s1 }

/-- The function `NotificationsBySubscriptionName(offset, limit, subscriptionName, dic)`. -/
def NotificationsBySubscriptionName {D σ : Type} (FromNotificationModelToDTO : Notification → D)
    (dbClient : QueryDBClient σ) (offset limit : Int) (subscriptionName : String) (s : σ) :
    ListResult D σ :=
  if subscriptionName = "" then
    { notifications := [], totalCount := 0
      err := some (NewCommonEdgeX KindContractInvalid "subscriptionName is empty" none)
      calls := [], store := s }
  else
    match dbClient.SubscriptionByName subscriptionName s with
    | (.error err, s0) =>
      { notifications := [], totalCount := 0, err := some (NewCommonEdgeXWrapper err)
        calls := [.subscriptionByName subscriptionName], store := s0 }
    | (.ok subscription, s0) =>
      match dbClient.NotificationsByCategoriesAndLabels offset limit subscription.Categories
          subscription.Labels s0 with
      | (.error err, s1) =>
        { notifications := [], totalCount := 0, err := some (NewCommonEdgeXWrapper err)
          calls := [.subscriptionByName subscriptionName,
                    .notificationsByCategoriesAndLabels offset limit subscription.Categories
                      subscription.Labels]
          store := s1 }
      | (.ok notificationModels, s1) =>
        match dbClient.NotificationCountByCategoriesAndLabels subscription.Categories
            subscription.Labels s1 with
        | ((totalCount, some err), s2) =>
          { notifications := [], totalCount := totalCount
            err := some (NewCommonEdgeXWrapper err)
            calls := [.subscriptionByName subscriptionName,
                      .notificationsByCategoriesAndLabels offset limit subscription.Categories
                        subscription.Labels,
                      .notificationCountByCategoriesAndLabels subscription.Categories
                        subscription.Labels]
            store := s2 }
        | ((totalCount, none), s2) =>
          { notifications := notificationModels.map FromNotificationModelToDTO
            totalCount := totalCount, err := none
            calls := [.subscriptionByName subscriptionName,
                      .notificationsByCategoriesAndLabels offset limit subscription.Categories
                        subscription.Labels,
                      .notificationCountByCategoriesAndLabels subscription.Categories
                        subscription.Labels]
            store := s2 }

/-- Query client whose list queries all answer with the same models and whose
count queries all answer with the same count and error; the record with the
given id is the first model with that id. -/
def scriptedQueryClient (models : List Notification) (count : Nat) (countErr : Option EdgeX) :
    QueryDBClient Unit where
  NotificationsByCategory := fun _ _ _ s => (.ok models, s)
  NotificationCountByCategory := fun _ s => ((count, countErr), s)
  NotificationsByLabel := fun _ _ _ s => (.ok models, s)
  NotificationCountByLabel := fun _ s => ((count, countErr), s)
  NotificationsByStatus := fun _ _ _ s => (.ok models, s)
  NotificationCountByStatus := fun _ s => ((count, countErr), s)
  NotificationsByTimeRange := fun _ _ _ _ s => (.ok models, s)
  NotificationCountByTimeRange := fun _ _ s => ((count, countErr), s)
  NotificationById := fun id s =>
    match models.find? (fun n => n.Id = id) with
    | some n => (.ok n, s)
    | none => (.error (.leaf "NotFound" "no such notification"), s)
  DeleteNotificationById := fun _ s => (none, s)
  SubscriptionByName := fun _ s => (.ok { Categories := [], Labels := [] }, s)
  NotificationsByCategoriesAndLabels := fun _ _ _ _ s => (.ok models, s)
  NotificationCountByCategoriesAndLabels := fun _ _ s => ((count, countErr), s)

/-- What is required of the outcome `r` of a list operation, given the answer
`listAnswer` of its list query and its count query `countQuery` (run on the
store the list query left): a count call is made only if the list query
succeeded; a failed list query, or a failed count query after it, gives an
error and no notifications; two successes give no error, the count of the
count query, and the models converted one by one in order. -/
def ListOpOutcome {D σ : Type} (FromNotificationModelToDTO : Notification → D)
    (listAnswer : Except EdgeX (List Notification) × σ)
    (countQuery : σ → (Nat × Option EdgeX) × σ) (r : ListResult D σ) : Prop :=
  ((∃ c ∈ r.calls, c.isCount = true) → ∃ models, listAnswer.1 = .ok models) ∧
  ((∃ e, listAnswer.1 = .error e) → r.err.isSome = true ∧ r.notifications = []) ∧
  (∀ models, listAnswer.1 = .ok models → ((countQuery listAnswer.2).1.2).isSome = true →
    r.err.isSome = true ∧ r.notifications = []) ∧
  (∀ models, listAnswer.1 = .ok models → (countQuery listAnswer.2).1.2 = none →
    r.err = none ∧ r.totalCount = (countQuery listAnswer.2).1.1 ∧
    r.notifications.length = models.length ∧
    (∀ i : Nat, r.notifications[i]? = (models[i]?).map FromNotificationModelToDTO) ∧
    (∃ c ∈ r.calls, c.isCount = true))

/-! ## The five paths through a cycle -/

/-- Path 1: the count query fails. -/
theorem purge_eq_of_count_error {σ : Type} (dic : Container σ) (now : Int) (s : σ) (e : EdgeX)
    (hcount : (dic.dbClient.NotificationTotalCount s).1 = .error e) :
    purgeNotification dic now s =
      { err := some (NewCommonEdgeX (Kind e) "failed to query notification total count, %v" (some e))
        calls := [.totalCount (.error e)]
        store := (dic.dbClient.NotificationTotalCount s).2 } := by
  simp only [purgeNotification]
  generalize dic.dbClient.NotificationTotalCount s = q at hcount ⊢
  obtain ⟨r, s1⟩ := q
  simp only at hcount
  subst hcount
  rfl

/-- Path 2: the count is below `MaxCap`. -/
theorem purge_eq_of_below {σ : Type} (dic : Container σ) (now : Int) (s : σ) (total : Nat)
    (hcount : (dic.dbClient.NotificationTotalCount s).1 = .ok total)
    (hlt : total < dic.config.MaxCap) :
    purgeNotification dic now s =
      { err := none
        calls := [.totalCount (.ok total)]
        store := (dic.dbClient.NotificationTotalCount s).2 } := by
  simp only [purgeNotification]
  generalize dic.dbClient.NotificationTotalCount s = q at hcount ⊢
  obtain ⟨r, s1⟩ := q
  simp only at hcount
  subst hcount
  simp [Nat.not_le.mpr hlt]

/-- Path 3: the count reaches `MaxCap` and the boundary lookup fails. -/
theorem purge_eq_of_latest_error {σ : Type} (dic : Container σ) (now : Int) (s : σ) (total : Nat)
    (e : EdgeX)
    (hcount : (dic.dbClient.NotificationTotalCount s).1 = .ok total)
    (hge : total ≥ dic.config.MaxCap)
    (hlatest : (dic.dbClient.LatestNotificationByOffset dic.config.MinCap
      (dic.dbClient.NotificationTotalCount s).2).1 = .error e) :
    purgeNotification dic now s =
      { err := some (NewCommonEdgeX (Kind e)
          ("failed to query notification with offset '" ++ toString dic.config.MinCap ++ "'") (some e))
        calls := [.totalCount (.ok total), .latestByOffset dic.config.MinCap (.error e)]
        store := (dic.dbClient.LatestNotificationByOffset dic.config.MinCap
          (dic.dbClient.NotificationTotalCount s).2).2 } := by
  simp only [purgeNotification]
  generalize dic.dbClient.NotificationTotalCount s = q at hcount hlatest ⊢
  obtain ⟨r, s1⟩ := q
  simp only at hcount hlatest
  subst hcount
  simp only [ge_iff_le] at hge
  simp only [ge_iff_le, hge, if_true]
  generalize dic.dbClient.LatestNotificationByOffset dic.config.MinCap s1 = q2 at hlatest ⊢
  obtain ⟨r2, s2⟩ := q2
  simp only at hlatest
  subst hlatest
  rfl

/-- Paths 4 and 5: the count reaches `MaxCap`, the boundary lookup succeeds and
the cleanup is called with the wrapped difference `now - Modified`. -/
theorem purge_eq_of_latest_ok {σ : Type} (dic : Container σ) (now : Int) (s : σ) (total : Nat)
    (n : Notification)
    (hcount : (dic.dbClient.NotificationTotalCount s).1 = .ok total)
    (hge : total ≥ dic.config.MaxCap)
    (hlatest : (dic.dbClient.LatestNotificationByOffset dic.config.MinCap
      (dic.dbClient.NotificationTotalCount s).2).1 = .ok n) :
    purgeNotification dic now s =
      { err := ((dic.dbClient.CleanupNotificationsByAge (wrapInt64 (now - n.Modified))
            (dic.dbClient.LatestNotificationByOffset dic.config.MinCap
              (dic.dbClient.NotificationTotalCount s).2).2).1).map
          (fun e => NewCommonEdgeX (Kind e)
            ("failed to delete notifications and transmissions by age '" ++
              toString (wrapInt64 (now - n.Modified)) ++ "'") (some e))
        calls := [.totalCount (.ok total), .latestByOffset dic.config.MinCap (.ok n),
          .cleanupByAge (wrapInt64 (now - n.Modified))
            (dic.dbClient.CleanupNotificationsByAge (wrapInt64 (now - n.Modified))
              (dic.dbClient.LatestNotificationByOffset dic.config.MinCap
                (dic.dbClient.NotificationTotalCount s).2).2).1]
        store := (dic.dbClient.CleanupNotificationsByAge (wrapInt64 (now - n.Modified))
            (dic.dbClient.LatestNotificationByOffset dic.config.MinCap
              (dic.dbClient.NotificationTotalCount s).2).2).2 } := by
  simp only [purgeNotification]
  generalize dic.dbClient.NotificationTotalCount s = q at hcount hlatest ⊢
  obtain ⟨r, s1⟩ := q
  simp only at hcount hlatest
  subst hcount
  simp only [ge_iff_le] at hge
  simp only [ge_iff_le, hge, if_true]
  generalize dic.dbClient.LatestNotificationByOffset dic.config.MinCap s1 = q2 at hlatest ⊢
  obtain ⟨r2, s2⟩ := q2
  simp only at hlatest
  subst hlatest
  simp only
  generalize dic.dbClient.CleanupNotificationsByAge (wrapInt64 (now - n.Modified)) s2 = q3
  obtain ⟨r3, s3⟩ := q3
  cases r3 <;> rfl

/-! ## Properties of one cycle -/

/-- C1: when `NotificationTotalCount` succeeds with `total < MaxCap`, the cycle
issues no `CleanupNotificationsByAge` call and no `LatestNotificationByOffset`
call, and returns no error. -/
theorem purge_below_maxcap_is_noop {σ : Type} (dic : Container σ) (now : Int) (s : σ)
    (total : Nat) (hcount : (dic.dbClient.NotificationTotalCount s).1 = .ok total)
    (hlt : total < dic.config.MaxCap) :
    (purgeNotification dic now s).err = none ∧
    (∀ c ∈ (purgeNotification dic now s).calls, c.isCleanup = false ∧ c.isLatestByOffset = false) := by
  rw [purge_eq_of_below dic now s total hcount hlt]
  simp [Call.isCleanup, Call.isLatestByOffset]

/-- C1 at `MaxCap = 100`, `total = 99`. -/
theorem purge_below_maxcap_is_noop_witness :
    (purgeNotification ⟨scriptedClient (.ok 99) (fun _ => .ok ⟨"n", 0⟩) (fun _ => none), ⟨100, 80⟩⟩
        7000 []).err = none ∧
    (∀ c ∈ (purgeNotification ⟨scriptedClient (.ok 99) (fun _ => .ok ⟨"n", 0⟩) (fun _ => none), ⟨100, 80⟩⟩
        7000 []).calls, c.isCleanup = false ∧ c.isLatestByOffset = false) :=
  purge_below_maxcap_is_noop
    ⟨scriptedClient (.ok 99) (fun _ => .ok ⟨"n", 0⟩) (fun _ => none), ⟨100, 80⟩⟩ 7000 [] 99 rfl
    (by decide)

/-- C2: when the count reaches `MaxCap` and the lookup at offset `MinCap` returns
a boundary record, the cycle issues exactly one `CleanupNotificationsByAge`
call; its argument is the `int64` difference `now - boundary.Modified`, which
is the plain difference whenever that fits 64 bits. -/
theorem purge_issues_one_cleanup {σ : Type} (dic : Container σ) (now : Int) (s : σ)
    (total : Nat) (boundary : Notification)
    (hcount : (dic.dbClient.NotificationTotalCount s).1 = .ok total)
    (hge : total ≥ dic.config.MaxCap)
    (hlatest : (dic.dbClient.LatestNotificationByOffset dic.config.MinCap
      (dic.dbClient.NotificationTotalCount s).2).1 = .ok boundary) :
    ((purgeNotification dic now s).calls.filter Call.isCleanup).length = 1 ∧
    cleanupAges (purgeNotification dic now s).calls = [wrapInt64 (now - boundary.Modified)] ∧
    (-2 ^ 63 ≤ now - boundary.Modified → now - boundary.Modified < 2 ^ 63 →
      cleanupAges (purgeNotification dic now s).calls = [now - boundary.Modified]) := by
  rw [purge_eq_of_latest_ok dic now s total boundary hcount hge hlatest]
  refine ⟨by simp [Call.isCleanup], by simp [cleanupAges], ?_⟩
  intro hlo hhi
  have hw : wrapInt64 (now - boundary.Modified) = now - boundary.Modified := by
    unfold wrapInt64
    omega
  simp [cleanupAges, hw]

/-- C2 at `MaxCap = 100`, `MinCap = 80`, `total = 100`, `Modified = T`,
`now = T + 5000` with `T = 1700000000000`: the single call is
`CleanupNotificationsByAge(5000)`. -/
theorem purge_issues_one_cleanup_witness :
    ((purgeNotification ⟨scriptedClient (.ok 100) (fun _ => .ok ⟨"b", 1700000000000⟩)
        (fun _ => none), ⟨100, 80⟩⟩ 1700000005000 []).calls.filter Call.isCleanup).length = 1 ∧
    cleanupAges (purgeNotification ⟨scriptedClient (.ok 100) (fun _ => .ok ⟨"b", 1700000000000⟩)
        (fun _ => none), ⟨100, 80⟩⟩ 1700000005000 []).calls = [5000] := by
  have h := purge_issues_one_cleanup
    ⟨scriptedClient (.ok 100) (fun _ => .ok ⟨"b", 1700000000000⟩) (fun _ => none), ⟨100, 80⟩⟩
    1700000005000 [] 100 ⟨"b", 1700000000000⟩ rfl (by decide) rfl
  refine ⟨h.1, ?_⟩
  have h2 := h.2.2 (by norm_num) (by norm_num)
  rw [h2]
  norm_num

/-- C4: when `NotificationTotalCount` fails, or when the count reaches `MaxCap`
and `LatestNotificationByOffset(MinCap)` fails, the cycle issues no
`CleanupNotificationsByAge` call and returns an error. -/
theorem purge_no_cleanup_without_cutoff {σ : Type} (dic : Container σ) (now : Int) (s : σ)
    (h : (∃ e, (dic.dbClient.NotificationTotalCount s).1 = .error e) ∨
      (∃ total e, (dic.dbClient.NotificationTotalCount s).1 = .ok total ∧
        total ≥ dic.config.MaxCap ∧
        (dic.dbClient.LatestNotificationByOffset dic.config.MinCap
          (dic.dbClient.NotificationTotalCount s).2).1 = .error e)) :
    (∀ c ∈ (purgeNotification dic now s).calls, c.isCleanup = false) ∧
    cleanupAges (purgeNotification dic now s).calls = [] ∧
    (purgeNotification dic now s).err.isSome = true := by
  rcases h with ⟨e, he⟩ | ⟨total, e, hcount, hge, hlatest⟩
  · rw [purge_eq_of_count_error dic now s e he]
    simp [Call.isCleanup, cleanupAges]
  · rw [purge_eq_of_latest_error dic now s total e hcount hge hlatest]
    simp [Call.isCleanup, cleanupAges]

/-- C4 at `MaxCap = 100`, `MinCap = 80`, a count of 100 and a lookup at offset
80 that fails because only 50 records exist. -/
theorem purge_no_cleanup_without_cutoff_witness :
    (∀ c ∈ (purgeNotification ⟨scriptedClient (.ok 100)
        (fun offset => if offset < 50 then .ok ⟨"n", 0⟩ else .error (.leaf "NotFound" "no record"))
        (fun _ => none), ⟨100, 80⟩⟩ 9000 []).calls, c.isCleanup = false) ∧
    cleanupAges (purgeNotification ⟨scriptedClient (.ok 100)
        (fun offset => if offset < 50 then .ok ⟨"n", 0⟩ else .error (.leaf "NotFound" "no record"))
        (fun _ => none), ⟨100, 80⟩⟩ 9000 []).calls = [] ∧
    (purgeNotification ⟨scriptedClient (.ok 100)
        (fun offset => if offset < 50 then .ok ⟨"n", 0⟩ else .error (.leaf "NotFound" "no record"))
        (fun _ => none), ⟨100, 80⟩⟩ 9000 []).err.isSome = true :=
  purge_no_cleanup_without_cutoff
    ⟨scriptedClient (.ok 100)
      (fun offset => if offset < 50 then .ok ⟨"n", 0⟩ else .error (.leaf "NotFound" "no record"))
      (fun _ => none), ⟨100, 80⟩⟩ 9000 []
    (Or.inr ⟨100, .leaf "NotFound" "no record", rfl, by decide, rfl⟩)

/-- C5: for every storage client, a cycle makes at most one mutating call, it
returns an error exactly when one of the calls it made failed, and a failed
`CleanupNotificationsByAge` call yields an error that wraps the error of the client. -/
theorem purge_error_iff_a_call_failed {σ : Type} (dic : Container σ) (now : Int) (s : σ) :
    ((purgeNotification dic now s).calls.filter Call.mutating).length ≤ 1 ∧
    ((purgeNotification dic now s).err.isSome = true ↔
      ∃ c ∈ (purgeNotification dic now s).calls, c.failed = true) ∧
    (∀ age e, Call.cleanupByAge age (some e) ∈ (purgeNotification dic now s).calls →
      ∃ msg, (purgeNotification dic now s).err = some (.wrapping (Kind e) msg e)) := by
  simp only [purgeNotification]
  split
  · simp [Call.mutating, Call.isCleanup, Call.failed]
  · split
    · split
      · simp [Call.mutating, Call.isCleanup, Call.failed]
      · split <;> simp [Call.mutating, Call.isCleanup, Call.failed, NewCommonEdgeX]
    · simp [Call.mutating, Call.isCleanup, Call.failed]

/-- C5 on a storage client whose cleanup fails: the one mutating call is made
and the cycle returns an error wrapping the error of the client. -/
theorem purge_error_iff_a_call_failed_witness :
    ((purgeNotification ⟨scriptedClient (.ok 100) (fun _ => .ok ⟨"b", 2000⟩)
        (fun _ => some (.leaf "ServerError" "down")), ⟨100, 80⟩⟩ 7000 []).calls.filter
        Call.mutating).length ≤ 1 ∧
    (purgeNotification ⟨scriptedClient (.ok 100) (fun _ => .ok ⟨"b", 2000⟩)
        (fun _ => some (.leaf "ServerError" "down")), ⟨100, 80⟩⟩ 7000 []).err.isSome = true := by
  have h := purge_error_iff_a_call_failed
    ⟨scriptedClient (.ok 100) (fun _ => .ok ⟨"b", 2000⟩)
      (fun _ => some (.leaf "ServerError" "down")), ⟨100, 80⟩⟩ 7000 []
  refine ⟨h.1, h.2.1.mpr
    ⟨.cleanupByAge (wrapInt64 (7000 - 2000)) (some (.leaf "ServerError" "down")), ?_, rfl⟩⟩
  rw [purge_eq_of_latest_ok _ 7000 [] 100 ⟨"b", 2000⟩ rfl (by decide) rfl]
  simp [scriptedClient]

/-- C6 as stated fails: with a boundary record modified after the cycle's `now`
(`Modified = 2000`, `now = 1000`) the age passed to the cleanup is `-1000`. -/
theorem purge_age_negative_counterexample :
    cleanupAges (purgeNotification ⟨scriptedClient (.ok 100) (fun _ => .ok ⟨"b", 2000⟩)
        (fun _ => none), ⟨100, 80⟩⟩ 1000 []).calls = [-1000] ∧
    ¬ (∀ age ∈ cleanupAges (purgeNotification ⟨scriptedClient (.ok 100) (fun _ => .ok ⟨"b", 2000⟩)
        (fun _ => none), ⟨100, 80⟩⟩ 1000 []).calls, 0 ≤ age) := by
  have h : cleanupAges (purgeNotification ⟨scriptedClient (.ok 100) (fun _ => .ok ⟨"b", 2000⟩)
      (fun _ => none), ⟨100, 80⟩⟩ 1000 []).calls = [-1000] := by
    rw [purge_eq_of_latest_ok _ 1000 [] 100 ⟨"b", 2000⟩ rfl (by decide) rfl]
    simp only [cleanupAges, wrapInt64]
    norm_num
  refine ⟨h, ?_⟩
  rw [h]
  simp

/-- C6, amended: in a cycle that reaches the cleanup with a boundary record
whose difference `now - Modified` fits 64 bits, the age passed is that
difference, and it is `>= 0` exactly when the boundary record was not modified
after `now`. -/
theorem purge_age_nonneg_iff {σ : Type} (dic : Container σ) (now : Int) (s : σ)
    (total : Nat) (boundary : Notification)
    (hcount : (dic.dbClient.NotificationTotalCount s).1 = .ok total)
    (hge : total ≥ dic.config.MaxCap)
    (hlatest : (dic.dbClient.LatestNotificationByOffset dic.config.MinCap
      (dic.dbClient.NotificationTotalCount s).2).1 = .ok boundary)
    (hlo : -2 ^ 63 ≤ now - boundary.Modified) (hhi : now - boundary.Modified < 2 ^ 63) :
    cleanupAges (purgeNotification dic now s).calls = [now - boundary.Modified] ∧
    ((∀ age ∈ cleanupAges (purgeNotification dic now s).calls, 0 ≤ age) ↔
      boundary.Modified ≤ now) := by
  rw [purge_eq_of_latest_ok dic now s total boundary hcount hge hlatest]
  have hw : wrapInt64 (now - boundary.Modified) = now - boundary.Modified := by
    unfold wrapInt64
    omega
  simp [cleanupAges, hw]

/-- C6, amended, at `Modified = 1700000000000`, `now = 1700000005000`. -/
theorem purge_age_nonneg_iff_witness :
    cleanupAges (purgeNotification ⟨scriptedClient (.ok 100) (fun _ => .ok ⟨"b", 1700000000000⟩)
        (fun _ => none), ⟨100, 80⟩⟩ 1700000005000 []).calls
      = [1700000005000 - 1700000000000] ∧
    ((∀ age ∈ cleanupAges (purgeNotification ⟨scriptedClient (.ok 100)
        (fun _ => .ok ⟨"b", 1700000000000⟩) (fun _ => none), ⟨100, 80⟩⟩ 1700000005000 []).calls,
        0 ≤ age) ↔ (1700000000000 : Int) ≤ 1700000005000) :=
  purge_age_nonneg_iff
    ⟨scriptedClient (.ok 100) (fun _ => .ok ⟨"b", 1700000000000⟩) (fun _ => none), ⟨100, 80⟩⟩
    1700000005000 [] 100 ⟨"b", 1700000000000⟩ rfl (by decide) rfl (by norm_num) (by norm_num)

/-! ## Properties of the background loop -/

/-- An exited loop ignores every event. -/
theorem runLoop_exited {σ : Type} (dic : Container σ) (st : LoopState σ)
    (h : st.status = .exited) (evs : List LoopEvent) : runLoop dic st evs = st := by
  induction evs with
  | nil => rfl
  | cons ev evs ih =>
    have hstep : loopStep dic st ev = st := by
      simp [loopStep, h]
    simp only [runLoop, List.foldl_cons, hstep]
    exact ih

/-- A timer event in a running loop invokes `purgeNotification` once, on the
current store, and leaves the loop running whatever the cycle returns. -/
theorem loopStep_timerFired {σ : Type} (dic : Container σ) (st : LoopState σ) (now : Int)
    (h : st.status = .running) :
    (loopStep dic st (.timerFired now)).status = .running ∧
    (loopStep dic st (.timerFired now)).cycles = st.cycles + 1 ∧
    (loopStep dic st (.timerFired now)).store = (purgeNotification dic now st.store).store := by
  simp only [loopStep, h]
  rcases purgeNotification dic now st.store with ⟨_ | e, calls, store⟩ <;> simp

/-- C7: in a running loop, a tick whose `purgeNotification` returns an error
leaves the loop running, so that the next tick invokes `purgeNotification`
again; and an event ends a running loop only if it is the cancellation. -/
theorem loop_survives_purge_error {σ : Type} (dic : Container σ) (st : LoopState σ) (now : Int)
    (hrun : st.status = .running)
    (herr : (purgeNotification dic now st.store).err.isSome = true) :
    (loopStep dic st (.timerFired now)).status = .running ∧
    (loopStep dic st (.timerFired now)).cycles = st.cycles + 1 ∧
    (∃ err, (purgeNotification dic now st.store).err = some err ∧
      (loopStep dic st (.timerFired now)).log =
        st.log ++ [.error "Failed to purge notifications and transmissions, %v" err]) ∧
    (∀ now2, (runLoop dic st [.timerFired now, .timerFired now2]).cycles = st.cycles + 2 ∧
      (runLoop dic st [.timerFired now, .timerFired now2]).store =
        (purgeNotification dic now2 (purgeNotification dic now st.store).store).store ∧
      (runLoop dic st [.timerFired now, .timerFired now2]).status = .running) ∧
    (∀ ev, (loopStep dic st ev).status = .exited ↔ ev = .ctxDone) := by
  obtain ⟨h1, h2, h3⟩ := loopStep_timerFired dic st now hrun
  refine ⟨h1, h2, ?_, ?_, ?_⟩
  · simp only [loopStep, hrun]
    rcases hp : purgeNotification dic now st.store with ⟨_ | e, calls, store⟩
    · rw [hp] at herr
      simp at herr
    · exact ⟨e, rfl, rfl⟩
  · intro now2
    obtain ⟨k1, k2, k3⟩ := loopStep_timerFired dic (loopStep dic st (.timerFired now)) now2 h1
    simp only [runLoop, List.foldl_cons, List.foldl_nil]
    refine ⟨by omega, ?_, k1⟩
    rw [k3, h3]
  · intro ev
    cases ev with
    | ctxDone => simp [loopStep, hrun]
    | timerFired t =>
      have := (loopStep_timerFired dic st t hrun).1
      simp [this]

/-- C7 on a storage client whose count query always fails: two ticks, two
invocations, loop still running. -/
theorem loop_survives_purge_error_witness :
    (loopStep ⟨scriptedClient (.error (.leaf "ServerError" "down")) (fun _ => .ok ⟨"n", 0⟩)
        (fun _ => none), ⟨100, 80⟩⟩ ⟨.running, [], 0, []⟩ (.timerFired 1000)).status = .running ∧
    (loopStep ⟨scriptedClient (.error (.leaf "ServerError" "down")) (fun _ => .ok ⟨"n", 0⟩)
        (fun _ => none), ⟨100, 80⟩⟩ ⟨.running, [], 0, []⟩ (.timerFired 1000)).cycles = 0 + 1 ∧
    (runLoop ⟨scriptedClient (.error (.leaf "ServerError" "down")) (fun _ => .ok ⟨"n", 0⟩)
        (fun _ => none), ⟨100, 80⟩⟩ ⟨.running, [], 0, []⟩
        [.timerFired 1000, .timerFired 2000]).cycles = 0 + 2 :=
  have h := loop_survives_purge_error
    ⟨scriptedClient (.error (.leaf "ServerError" "down")) (fun _ => .ok ⟨"n", 0⟩) (fun _ => none),
      ⟨100, 80⟩⟩ ⟨.running, [], 0, []⟩ 1000 rfl rfl
  ⟨h.1, h.2.1, (h.2.2.2.1 2000).1⟩

/-- C8: once the loop has taken the `ctx.Done` branch it has exited, and no
later sequence of events changes anything: `purgeNotification` is not invoked
again (the counter and the store stay as they were before the cancellation)
and the status never returns to running. -/
theorem loop_stopped_is_terminal {σ : Type} (dic : Container σ) (st : LoopState σ)
    (evs : List LoopEvent) :
    (loopStep dic st .ctxDone).status = .exited ∧
    runLoop dic (loopStep dic st .ctxDone) evs = loopStep dic st .ctxDone ∧
    (runLoop dic (loopStep dic st .ctxDone) evs).status = .exited ∧
    (runLoop dic (loopStep dic st .ctxDone) evs).cycles = st.cycles ∧
    (runLoop dic (loopStep dic st .ctxDone) evs).store = st.store := by
  have hex : (loopStep dic st .ctxDone).status = .exited := by
    unfold loopStep
    cases hs : st.status <;> simp [hs]
  have hc : (loopStep dic st .ctxDone).cycles = st.cycles ∧
      (loopStep dic st .ctxDone).store = st.store := by
    unfold loopStep
    cases hs : st.status <;> simp
  rw [runLoop_exited dic _ hex evs]
  exact ⟨hex, rfl, hex, hc.1, hc.2⟩

/-- C8 on a concrete run: one tick, the cancellation, then two more ticks; one
cycle was run and the loop has exited. -/
theorem loop_stopped_is_terminal_witness :
    (runLoop ⟨scriptedClient (.ok 99) (fun _ => .ok ⟨"n", 0⟩) (fun _ => none), ⟨100, 80⟩⟩
      (loopStep ⟨scriptedClient (.ok 99) (fun _ => .ok ⟨"n", 0⟩) (fun _ => none), ⟨100, 80⟩⟩
        ⟨.running, [], 1, []⟩ .ctxDone) [.timerFired 2000, .timerFired 3000]).status = .exited ∧
    (runLoop ⟨scriptedClient (.ok 99) (fun _ => .ok ⟨"n", 0⟩) (fun _ => none), ⟨100, 80⟩⟩
      (loopStep ⟨scriptedClient (.ok 99) (fun _ => .ok ⟨"n", 0⟩) (fun _ => none), ⟨100, 80⟩⟩
        ⟨.running, [], 1, []⟩ .ctxDone) [.timerFired 2000, .timerFired 3000]).cycles = 1 :=
  have h := loop_stopped_is_terminal
    ⟨scriptedClient (.ok 99) (fun _ => .ok ⟨"n", 0⟩) (fun _ => none), ⟨100, 80⟩⟩
    ⟨.running, [], 1, []⟩ [.timerFired 2000, .timerFired 3000]
  ⟨h.2.2.1, h.2.2.2.1⟩

/-! ## Properties of the start-once guard -/

/-- With the flag set, no event launches a goroutine or clears the flag. -/
theorem runProcess_of_onceDone {δ : Type} (evs : List (ProcEvent δ)) (p : Process δ)
    (h : p.onceDone = true) :
    (runProcess p evs).onceDone = true ∧
    (runProcess p evs).goroutines.map Goroutine.args = p.goroutines.map Goroutine.args := by
  induction evs generalizing p with
  | nil => exact ⟨h, rfl⟩
  | cons ev evs ih =>
    simp only [runProcess, List.foldl_cons]
    cases ev with
    | call args =>
      have hstep : procStep p (.call args) = p := by
        simp [procStep, AsyncPurgeNotification, h]
      rw [hstep]
      exact ih p h
    | cancel ctx =>
      obtain ⟨h1, h2⟩ := ih (procStep p (.cancel ctx)) (by simp [procStep, h])
      refine ⟨h1, ?_⟩
      rw [show List.foldl procStep (procStep p (.cancel ctx)) evs
        = runProcess (procStep p (.cancel ctx)) evs from rfl, h2]
      simp only [procStep, List.map_map]
      apply List.map_congr_left
      intro g _
      by_cases hg : g.args.ctx = ctx <;> simp [hg]

/-- With the flag unset, the goroutines launched by a sequence of events are
the one of its first call, if it has a call. -/
theorem runProcess_of_not_onceDone {δ : Type} (evs : List (ProcEvent δ)) (p : Process δ)
    (h : p.onceDone = false) :
    (runProcess p evs).onceDone = (firstCall evs).isSome ∧
    (runProcess p evs).goroutines.map Goroutine.args =
      p.goroutines.map Goroutine.args ++ (firstCall evs).toList := by
  induction evs generalizing p with
  | nil => simp [runProcess, firstCall, h]
  | cons ev evs ih =>
    cases ev with
    | call args =>
      have hdone : (procStep p (.call args)).onceDone = true := by
        simp [procStep, AsyncPurgeNotification, h]
      obtain ⟨h1, h2⟩ := runProcess_of_onceDone evs (procStep p (.call args)) hdone
      have hrun : runProcess p (.call args :: evs) = runProcess (procStep p (.call args)) evs := rfl
      rw [hrun, h1, h2]
      simp [procStep, AsyncPurgeNotification, h, firstCall]
    | cancel ctx =>
      obtain ⟨h1, h2⟩ := ih (procStep p (.cancel ctx)) (by simp [procStep, h])
      have hrun : runProcess p (.cancel ctx :: evs) = runProcess (procStep p (.cancel ctx)) evs := rfl
      rw [hrun, h1, h2]
      refine ⟨by simp [firstCall], ?_⟩
      simp only [firstCall, procStep, List.map_map]
      congr 1
      apply List.map_congr_left
      intro g _
      by_cases hg : g.args.ctx = ctx <;> simp [hg]

/-- C9: from the zero `sync.Once`, over every sequence of `AsyncPurgeNotification`
calls and context cancellations, the goroutines launched are exactly the one
of the first call (so at most one), and after a first call every further call
leaves the process state unchanged, cancellations in between included. -/
theorem async_purge_starts_once {δ : Type} (evs : List (ProcEvent δ)) :
    (runProcess (Process.init δ) evs).goroutines.map Goroutine.args = (firstCall evs).toList ∧
    (runProcess (Process.init δ) evs).goroutines.length ≤ 1 ∧
    (∀ (before after : List (ProcEvent δ)) (first later : StartArgs δ),
      procStep (runProcess (Process.init δ) (before ++ .call first :: after)) (.call later) =
        runProcess (Process.init δ) (before ++ .call first :: after)) := by
  have hmain : (runProcess (Process.init δ) evs).goroutines.map Goroutine.args =
      (firstCall evs).toList := by
    have h := (runProcess_of_not_onceDone evs (Process.init δ) rfl).2
    simpa [Process.init] using h
  refine ⟨hmain, ?_, ?_⟩
  · have hlen := congrArg List.length hmain
    rw [List.length_map] at hlen
    rw [hlen]
    cases firstCall evs <;> simp
  · intro before after first later
    have hsplit : runProcess (Process.init δ) (before ++ .call first :: after) =
        runProcess (procStep (runProcess (Process.init δ) before) (.call first)) after := by
      simp [runProcess, List.foldl_append]
    have hdone : (procStep (runProcess (Process.init δ) before) (.call first)).onceDone = true := by
      simp only [procStep, AsyncPurgeNotification]
      split <;> simp_all
    have hfinal := (runProcess_of_onceDone after _ hdone).1
    rw [hsplit]
    generalize runProcess (procStep (runProcess (Process.init δ) before) (.call first)) after = q
      at hfinal ⊢
    simp [procStep, AsyncPurgeNotification, hfinal]

/-- C9 on a concrete run: a call, the cancellation of its context, then a call
with other arguments; one goroutine, that of the first call, has been
launched and it has exited. -/
theorem async_purge_starts_once_witness :
    (runProcess (Process.init Unit)
      [.call ⟨1000, 1, ()⟩, .cancel 1, .call ⟨2000, 2, ()⟩]).goroutines.map
        (fun g => (g.args.interval, g.args.ctx, g.status)) = [(1000, 1, .exited)] ∧
    (runProcess (Process.init Unit)
      [.call ⟨1000, 1, ()⟩, .cancel 1, .call ⟨2000, 2, ()⟩]).goroutines.length ≤ 1 :=
  ⟨by decide,
   (async_purge_starts_once [.call ⟨1000, 1, ()⟩, .cancel 1, .call ⟨2000, 2, ()⟩]).2.1⟩

/-! ## The cycle over the reference gateway -/

/-- Wrapping to 64 bits never increases a value that is at least `-2^63`. -/
theorem wrapInt64_le (x : Int) (h : -2 ^ 63 ≤ x) : wrapInt64 x ≤ x := by
  unfold wrapInt64
  omega

/-- Wrapping leaves a value of the `int64` range unchanged. -/
theorem wrapInt64_of_isInt64 (x : Int) (h : IsInt64 x) : wrapInt64 x = x := by
  unfold IsInt64 at h
  unfold wrapInt64
  omega

/-- In a list ranked newest-first, fewer than `k + 1` records are strictly
newer than the record at offset `k`. -/
theorem sorted_newer_count_le (l : List Notification) (hs : l.Sorted newerEq) (k : Nat)
    (b : Notification) (hb : l[k]? = some b) :
    (l.filter (fun r => decide (b.Modified < r.Modified))).length ≤ k := by
  induction k generalizing l with
  | zero =>
    cases l with
    | nil => simp at hb
    | cons a t =>
      simp only [List.getElem?_cons_zero, Option.some.injEq] at hb
      subst hb
      have hrel := List.rel_of_sorted_cons hs
      have hnil : (a :: t).filter (fun r => decide (a.Modified < r.Modified)) = [] := by
        rw [List.filter_eq_nil_iff]
        intro r hr
        rcases List.mem_cons.mp hr with rfl | hmem
        · simp
        · have := hrel r hmem
          unfold newerEq at this
          simpa using this
      simp [hnil]
  | succ k ih =>
    cases l with
    | nil => simp at hb
    | cons a t =>
      simp only [List.getElem?_cons_succ] at hb
      have ht := ih t (List.Sorted.of_cons hs) hb
      calc ((a :: t).filter (fun r => decide (b.Modified < r.Modified))).length
          ≤ (t.filter (fun r => decide (b.Modified < r.Modified))).length + 1 := by
            rw [List.filter_cons]
            split <;> simp
        _ ≤ k + 1 := by omega

/-- In any store, at most `k` records are strictly newer than the record at
offset `k` of the newest-first ranking. -/
theorem newer_than_boundary_count_le (records : List Notification) (k : Nat) (b : Notification)
    (hb : (newestFirst records)[k]? = some b) :
    (records.filter (fun r => decide (b.Modified < r.Modified))).length ≤ k := by
  have hperm : (newestFirst records).Perm records := List.perm_insertionSort newerEq records
  have hlen := (hperm.filter (fun r => decide (b.Modified < r.Modified))).length_eq
  rw [← hlen]
  exact sorted_newer_count_le _ (List.sorted_insertionSort newerEq records) k b hb

/-- A cycle over the reference gateway that reaches `MaxCap` and finds the
boundary record: no error, and the store keeps the records whose age at the
clock of the gateway is below the age passed. -/
theorem refCycle_eq_of_boundary (config : RetentionInfo) (s : RefStore) (b : Notification)
    (hge : s.records.length ≥ config.MaxCap) (hb : boundaryRecord config s = some b) :
    (purgeNotification ⟨referenceGateway, config⟩ s.clock s).err = none ∧
    storeAfterCycle config s =
      { records := s.records.filter
          (fun r => ¬ (s.clock - r.Modified ≥ wrapInt64 (s.clock - b.Modified)))
        clock := s.clock } := by
  have hlatest : ((referenceGateway).LatestNotificationByOffset config.MinCap
      ((referenceGateway).NotificationTotalCount s).2).1 = .ok b := by
    unfold boundaryRecord at hb
    simp [referenceGateway, hb]
  have h := purge_eq_of_latest_ok ⟨referenceGateway, config⟩ s.clock s s.records.length b rfl hge
    hlatest
  unfold storeAfterCycle
  rw [h]
  unfold boundaryRecord at hb
  simp [referenceGateway, hb]

/-- A cycle over the reference gateway that reaches `MaxCap` and returns no
error has found a boundary record. -/
theorem refCycle_boundary_of_ok (config : RetentionInfo) (s : RefStore)
    (hge : s.records.length ≥ config.MaxCap)
    (hok : (purgeNotification ⟨referenceGateway, config⟩ s.clock s).err = none) :
    ∃ b, boundaryRecord config s = some b := by
  cases hb : boundaryRecord config s with
  | some b => exact ⟨b, rfl⟩
  | none =>
    exfalso
    have hlatest : ((referenceGateway).LatestNotificationByOffset config.MinCap
        ((referenceGateway).NotificationTotalCount s).2).1 =
        .error (.leaf "NotFound" "no record at the offset") := by
      unfold boundaryRecord at hb
      simp [referenceGateway, hb]
    have h := purge_eq_of_latest_error ⟨referenceGateway, config⟩ s.clock s s.records.length _ rfl
      hge hlatest
    rw [h] at hok
    simp at hok

/-- Over the reference gateway, with a clock not before the epoch, every record
that survives the cleanup is strictly newer than the boundary record. -/
theorem survivor_newer_than_boundary (s : RefStore) (b r : Notification)
    (hclock : 0 ≤ s.clock) (hb : IsInt64 b.Modified)
    (hr : ¬ (s.clock - r.Modified ≥ wrapInt64 (s.clock - b.Modified))) :
    b.Modified < r.Modified := by
  have hw := wrapInt64_le (s.clock - b.Modified) (by unfold IsInt64 at hb; omega)
  omega

/-- C3: over the reference gateway (timestamps in the `int64` range, clock not
before the epoch), after a cycle that ran with `total >= MaxCap` and returned
no error, the total count observed is at most `MinCap`, hence at most `MinCap`
plus the number of records whose `Modified` equals that of the boundary record. -/
theorem refGateway_count_after_purge (config : RetentionInfo) (s : RefStore)
    (hclock : 0 ≤ s.clock) (hmod : ∀ r ∈ s.records, IsInt64 r.Modified)
    (hge : s.records.length ≥ config.MaxCap)
    (hok : (purgeNotification ⟨referenceGateway, config⟩ s.clock s).err = none) :
    ∃ b total, boundaryRecord config s = some b ∧
      (referenceGateway.NotificationTotalCount (storeAfterCycle config s)).1 = .ok total ∧
      total ≤ config.MinCap ∧
      total ≤ config.MinCap +
        (s.records.filter (fun r => decide (r.Modified = b.Modified))).length := by
  obtain ⟨b, hb⟩ := refCycle_boundary_of_ok config s hge hok
  have hbmem : b ∈ s.records :=
    (List.perm_insertionSort newerEq s.records).subset (List.getElem?_mem hb)
  have hstore := (refCycle_eq_of_boundary config s b hge hb).2
  have hle : (storeAfterCycle config s).records.length ≤ config.MinCap := by
    rw [hstore]
    refine le_trans ?_ (newer_than_boundary_count_le s.records config.MinCap b hb)
    apply List.Sublist.length_le
    apply List.monotone_filter_right
    intro r hr
    have := survivor_newer_than_boundary s b r hclock (hmod b hbmem) (by simpa using hr)
    simpa using this
  exact ⟨b, (storeAfterCycle config s).records.length, hb, rfl, hle, by omega⟩

/-- C3 on a store of five records with a tie at the boundary timestamp,
`MaxCap = 5`, `MinCap = 2`: two records are left. -/
theorem refGateway_count_after_purge_witness :
    (storeAfterCycle ⟨5, 2⟩
      ⟨[⟨"a", 10⟩, ⟨"b", 50⟩, ⟨"c", 30⟩, ⟨"d", 30⟩, ⟨"e", 40⟩], 100⟩).records
      = [⟨"b", 50⟩, ⟨"e", 40⟩] ∧
    ∃ b total, boundaryRecord ⟨5, 2⟩
        ⟨[⟨"a", 10⟩, ⟨"b", 50⟩, ⟨"c", 30⟩, ⟨"d", 30⟩, ⟨"e", 40⟩], 100⟩ = some b ∧
      (referenceGateway.NotificationTotalCount (storeAfterCycle ⟨5, 2⟩
        ⟨[⟨"a", 10⟩, ⟨"b", 50⟩, ⟨"c", 30⟩, ⟨"d", 30⟩, ⟨"e", 40⟩], 100⟩)).1 = .ok total ∧
      total ≤ 2 ∧
      total ≤ 2 + (([⟨"a", 10⟩, ⟨"b", 50⟩, ⟨"c", 30⟩, ⟨"d", 30⟩, ⟨"e", 40⟩] :
        List Notification).filter (fun r => decide (r.Modified = b.Modified))).length :=
  ⟨by decide,
   refGateway_count_after_purge ⟨5, 2⟩
    ⟨[⟨"a", 10⟩, ⟨"b", 50⟩, ⟨"c", 30⟩, ⟨"d", 30⟩, ⟨"e", 40⟩], 100⟩
    (by decide) (by decide) (by decide) (by decide)⟩

/-- C10 as stated fails: with records modified at 10, 30 and 20, `MaxCap = 3`,
`MinCap = 1` and the clock at 100, the cycle purges successfully, the boundary
record is the one modified at 20, and it is not in the store afterwards. -/
theorem boundary_record_deleted_counterexample :
    (purgeNotification ⟨referenceGateway, ⟨3, 1⟩⟩ 100
      ⟨[⟨"a", 10⟩, ⟨"b", 30⟩, ⟨"c", 20⟩], 100⟩).err = none ∧
    cleanupAges (purgeNotification ⟨referenceGateway, ⟨3, 1⟩⟩ 100
      ⟨[⟨"a", 10⟩, ⟨"b", 30⟩, ⟨"c", 20⟩], 100⟩).calls = [80] ∧
    boundaryRecord ⟨3, 1⟩ ⟨[⟨"a", 10⟩, ⟨"b", 30⟩, ⟨"c", 20⟩], 100⟩ = some ⟨"c", 20⟩ ∧
    (storeAfterCycle ⟨3, 1⟩ ⟨[⟨"a", 10⟩, ⟨"b", 30⟩, ⟨"c", 20⟩], 100⟩).records = [⟨"b", 30⟩] ∧
    (⟨"c", 20⟩ : Notification) ∉
      (storeAfterCycle ⟨3, 1⟩ ⟨[⟨"a", 10⟩, ⟨"b", 30⟩, ⟨"c", 20⟩], 100⟩).records := by
  decide

/-- C10, amended: over the reference gateway (timestamps in the `int64` range,
clock not before the epoch), after a cycle that purges successfully the
boundary record is gone together with every record modified no later than it;
every record left is strictly newer than the boundary record, and when the
age `now - boundary.Modified` fits 64 bits every strictly newer record is
left. -/
theorem boundary_and_older_deleted (config : RetentionInfo) (s : RefStore)
    (hclock : 0 ≤ s.clock) (hmod : ∀ r ∈ s.records, IsInt64 r.Modified)
    (hge : s.records.length ≥ config.MaxCap)
    (hok : (purgeNotification ⟨referenceGateway, config⟩ s.clock s).err = none) :
    ∃ b, boundaryRecord config s = some b ∧
      b ∉ (storeAfterCycle config s).records ∧
      (∀ r ∈ s.records, r.Modified ≤ b.Modified → r ∉ (storeAfterCycle config s).records) ∧
      (∀ r ∈ (storeAfterCycle config s).records, r ∈ s.records ∧ b.Modified < r.Modified) ∧
      (s.clock - b.Modified < 2 ^ 63 →
        ∀ r ∈ s.records, b.Modified < r.Modified → r ∈ (storeAfterCycle config s).records) := by
  obtain ⟨b, hb⟩ := refCycle_boundary_of_ok config s hge hok
  have hbmem : b ∈ s.records :=
    (List.perm_insertionSort newerEq s.records).subset (List.getElem?_mem hb)
  have hstore := (refCycle_eq_of_boundary config s b hge hb).2
  have hsurv : ∀ r ∈ (storeAfterCycle config s).records,
      r ∈ s.records ∧ b.Modified < r.Modified := by
    intro r hr
    rw [hstore] at hr
    obtain ⟨hmem, hp⟩ := List.mem_filter.mp hr
    exact ⟨hmem, survivor_newer_than_boundary s b r hclock (hmod b hbmem) (by simpa using hp)⟩
  refine ⟨b, hb, ?_, ?_, hsurv, ?_⟩
  · intro hin
    have := (hsurv b hin).2
    omega
  · intro r _ hle hin
    have := (hsurv r hin).2
    omega
  · intro hfit r hr hnewer
    rw [hstore]
    have hb64 := hmod b hbmem
    have hw : wrapInt64 (s.clock - b.Modified) = s.clock - b.Modified :=
      wrapInt64_of_isInt64 _ (by unfold IsInt64 at hb64 ⊢; omega)
    apply List.mem_filter.mpr
    refine ⟨hr, ?_⟩
    rw [hw]
    exact decide_eq_true (by omega)

/-- C10, amended, on the store of the counterexample. -/
theorem boundary_and_older_deleted_witness :
    ∃ b, boundaryRecord ⟨3, 1⟩ ⟨[⟨"a", 10⟩, ⟨"b", 30⟩, ⟨"c", 20⟩], 100⟩ = some b ∧
      b ∉ (storeAfterCycle ⟨3, 1⟩ ⟨[⟨"a", 10⟩, ⟨"b", 30⟩, ⟨"c", 20⟩], 100⟩).records ∧
      (∀ r ∈ ([⟨"a", 10⟩, ⟨"b", 30⟩, ⟨"c", 20⟩] : List Notification), r.Modified ≤ b.Modified →
        r ∉ (storeAfterCycle ⟨3, 1⟩ ⟨[⟨"a", 10⟩, ⟨"b", 30⟩, ⟨"c", 20⟩], 100⟩).records) ∧
      (∀ r ∈ (storeAfterCycle ⟨3, 1⟩ ⟨[⟨"a", 10⟩, ⟨"b", 30⟩, ⟨"c", 20⟩], 100⟩).records,
        r ∈ ([⟨"a", 10⟩, ⟨"b", 30⟩, ⟨"c", 20⟩] : List Notification) ∧ b.Modified < r.Modified) ∧
      ((100 : Int) - b.Modified < 2 ^ 63 →
        ∀ r ∈ ([⟨"a", 10⟩, ⟨"b", 30⟩, ⟨"c", 20⟩] : List Notification), b.Modified < r.Modified →
          r ∈ (storeAfterCycle ⟨3, 1⟩ ⟨[⟨"a", 10⟩, ⟨"b", 30⟩, ⟨"c", 20⟩], 100⟩).records) :=
  boundary_and_older_deleted ⟨3, 1⟩ ⟨[⟨"a", 10⟩, ⟨"b", 30⟩, ⟨"c", 20⟩], 100⟩
    (by decide) (by decide) (by decide) (by decide)

/-! ## The cycle over the reference gateway, without ties -/

/-- In a list of strictly decreasing `Modified`, the records strictly newer
than the record at offset `k` are the first `k` records. -/
theorem strict_newer_eq_take (l : List Notification)
    (hs : l.Pairwise (fun a b => b.Modified < a.Modified)) (k : Nat) (b : Notification)
    (hb : l[k]? = some b) :
    l.filter (fun r => decide (b.Modified < r.Modified)) = l.take k := by
  induction k generalizing l with
  | zero =>
    cases l with
    | nil => simp at hb
    | cons a t =>
      simp only [List.getElem?_cons_zero, Option.some.injEq] at hb
      subst hb
      have hrel := (List.pairwise_cons.mp hs).1
      rw [List.take_zero, List.filter_eq_nil_iff]
      intro r hr
      rcases List.mem_cons.mp hr with rfl | hmem
      · simp
      · have := hrel r hmem
        simp only [decide_eq_true_eq, not_lt]
        omega
  | succ k ih =>
    cases l with
    | nil => simp at hb
    | cons a t =>
      simp only [List.getElem?_cons_succ] at hb
      have hrel := (List.pairwise_cons.mp hs).1 b (List.getElem?_mem hb)
      have ht := ih t (List.pairwise_cons.mp hs).2 hb
      rw [List.filter_cons, if_pos (decide_eq_true hrel), ht, List.take_succ_cons]

/-- Without ties, the newest-first ranking is strictly decreasing. -/
theorem newestFirst_strict (records : List Notification)
    (hd : records.Pairwise (fun a b => a.Modified ≠ b.Modified)) :
    (newestFirst records).Pairwise (fun a b => b.Modified < a.Modified) := by
  have hperm : (newestFirst records).Perm records := List.perm_insertionSort newerEq records
  have hd2 : (newestFirst records).Pairwise (fun a b => a.Modified ≠ b.Modified) :=
    (hperm.pairwise_iff (fun h => Ne.symm h)).mpr hd
  have hs : (newestFirst records).Pairwise newerEq := List.sorted_insertionSort newerEq records
  exact List.Pairwise.imp₂ (fun a b hle hne => lt_of_le_of_ne hle (Ne.symm hne)) hs hd2

/-- C11 as stated fails: with the records `old` (modified at `-2^63`) and `new`
(modified at 0), the clock at 5000, `MaxCap = 2` and `MinCap = 1`, the store
holds more than `MinCap` records without ties and `total >= MaxCap`; the
boundary record is `old`, the `int64` difference `5000 - (-2^63)` wraps to
`5000 - 2^63`, the cycle returns no error, and no record is left instead of
one. -/
theorem wrapped_age_empties_store_counterexample :
    (1 < ([⟨"old", -9223372036854775808⟩, ⟨"new", 0⟩] : List Notification).length ∧
      ([⟨"old", -9223372036854775808⟩, ⟨"new", 0⟩] : List Notification).Pairwise
        (fun a b => a.Modified ≠ b.Modified) ∧
      ([⟨"old", -9223372036854775808⟩, ⟨"new", 0⟩] : List Notification).length ≥ 2 ∧
      (∀ r ∈ ([⟨"old", -9223372036854775808⟩, ⟨"new", 0⟩] : List Notification),
        IsInt64 r.Modified)) ∧
    boundaryRecord ⟨2, 1⟩ ⟨[⟨"old", -9223372036854775808⟩, ⟨"new", 0⟩], 5000⟩ =
      some ⟨"old", -9223372036854775808⟩ ∧
    (purgeNotification ⟨referenceGateway, ⟨2, 1⟩⟩ 5000
      ⟨[⟨"old", -9223372036854775808⟩, ⟨"new", 0⟩], 5000⟩).err = none ∧
    cleanupAges (purgeNotification ⟨referenceGateway, ⟨2, 1⟩⟩ 5000
      ⟨[⟨"old", -9223372036854775808⟩, ⟨"new", 0⟩], 5000⟩).calls = [-9223372036854770808] ∧
    (storeAfterCycle ⟨2, 1⟩ ⟨[⟨"old", -9223372036854775808⟩, ⟨"new", 0⟩], 5000⟩).records = [] ∧
    (storeAfterCycle ⟨2, 1⟩
      ⟨[⟨"old", -9223372036854775808⟩, ⟨"new", 0⟩], 5000⟩).records.length ≠ 1 := by
  decide

/-- C11, amended: over the reference gateway, for a store of more than `MinCap`
records with pairwise distinct `Modified` and a policy with `total >= MaxCap`,
provided the age `now - Modified` of the boundary record fits 64 bits (so that
the subtraction of the cycle does not wrap), the cycle succeeds and leaves
exactly `MinCap` records: the `MinCap` first of the newest-first ranking. -/
theorem refGateway_leaves_exactly_mincap (config : RetentionInfo) (s : RefStore)
    (hfit : ∀ b ∈ boundaryRecord config s, IsInt64 (s.clock - b.Modified))
    (hdistinct : s.records.Pairwise (fun a b => a.Modified ≠ b.Modified))
    (hmore : config.MinCap < s.records.length)
    (hge : s.records.length ≥ config.MaxCap) :
    (purgeNotification ⟨referenceGateway, config⟩ s.clock s).err = none ∧
    (storeAfterCycle config s).records.length = config.MinCap ∧
    (storeAfterCycle config s).records.Perm ((newestFirst s.records).take config.MinCap) ∧
    (referenceGateway.NotificationTotalCount (storeAfterCycle config s)).1 = .ok config.MinCap := by
  have hlen : (newestFirst s.records).length = s.records.length :=
    List.length_insertionSort newerEq s.records
  have hlt : config.MinCap < (newestFirst s.records).length := by omega
  have hb : boundaryRecord config s = some ((newestFirst s.records)[config.MinCap]) := by
    unfold boundaryRecord
    exact List.getElem?_eq_getElem hlt
  generalize (newestFirst s.records)[config.MinCap] = b at hb
  have hperm : (newestFirst s.records).Perm s.records := List.perm_insertionSort newerEq s.records
  obtain ⟨herr, hstore⟩ := refCycle_eq_of_boundary config s b hge hb
  have hw : wrapInt64 (s.clock - b.Modified) = s.clock - b.Modified :=
    wrapInt64_of_isInt64 _ (hfit b (Option.mem_def.mpr hb))
  have hfilter : s.records.filter
      (fun r => ¬ (s.clock - r.Modified ≥ wrapInt64 (s.clock - b.Modified))) =
      s.records.filter (fun r => decide (b.Modified < r.Modified)) := by
    apply List.filter_congr
    intro r _
    rw [hw]
    by_cases h : b.Modified < r.Modified
    · simp only [h, decide_True]
      exact decide_eq_true (by omega)
    · simp only [h, decide_False]
      exact decide_eq_false (by omega)
  have hkeep : (storeAfterCycle config s).records.Perm
      ((newestFirst s.records).take config.MinCap) := by
    rw [hstore]
    simp only
    rw [hfilter, ← strict_newer_eq_take (newestFirst s.records)
      (newestFirst_strict s.records hdistinct) config.MinCap b hb]
    exact (hperm.filter _).symm
  have hcount : (storeAfterCycle config s).records.length = config.MinCap := by
    rw [hkeep.length_eq, List.length_take]
    omega
  refine ⟨herr, hcount, hkeep, ?_⟩
  simp [referenceGateway, hcount]

/-- C11, amended, at `MaxCap = 100`, `MinCap = 80` and a store of 100 records
without ties: 80 records are left. -/
theorem refGateway_leaves_exactly_mincap_witness :
    (purgeNotification ⟨referenceGateway, ⟨100, 80⟩⟩ (sampleStore 100).clock
      (sampleStore 100)).err = none ∧
    (storeAfterCycle ⟨100, 80⟩ (sampleStore 100)).records.length = 80 ∧
    (storeAfterCycle ⟨100, 80⟩ (sampleStore 100)).records.Perm
      ((newestFirst (sampleStore 100).records).take 80) ∧
    (referenceGateway.NotificationTotalCount
      (storeAfterCycle ⟨100, 80⟩ (sampleStore 100))).1 = .ok 80 :=
  refGateway_leaves_exactly_mincap ⟨100, 80⟩ (sampleStore 100)
    (by decide) (by decide) (by decide) (by decide)

/-! ## The retention policy is not validated -/

/-- C12 as stated fails: under the policy `MaxCap = 80`, `MinCap = 100` with a
zero interval, the first `AsyncPurgeNotification` call launches the loop, and
a cycle that counts 90 records makes all three calls on the storage client
and returns no error. -/
theorem invalid_policy_runs_counterexample :
    ((AsyncPurgeNotification
        ⟨0, 1, (⟨scriptedClient (.ok 90) (fun _ => .ok ⟨"b", 2000⟩) (fun _ => none), ⟨80, 100⟩⟩ :
          Container (List Int))⟩
        (Process.init (Container (List Int)))).goroutines.map
          (fun g => (g.args.interval, g.status))) = [(0, .running)] ∧
    (purgeNotification ⟨scriptedClient (.ok 90) (fun _ => .ok ⟨"b", 2000⟩) (fun _ => none),
      ⟨80, 100⟩⟩ 7000 []).calls.length = 3 ∧
    cleanupAges (purgeNotification ⟨scriptedClient (.ok 90) (fun _ => .ok ⟨"b", 2000⟩)
      (fun _ => none), ⟨80, 100⟩⟩ 7000 []).calls = [5000] ∧
    (purgeNotification ⟨scriptedClient (.ok 90) (fun _ => .ok ⟨"b", 2000⟩) (fun _ => none),
      ⟨80, 100⟩⟩ 7000 []).err = none := by
  refine ⟨by decide, ?_⟩
  rw [purge_eq_of_latest_ok _ 7000 [] 90 ⟨"b", 2000⟩ rfl (by decide) rfl]
  refine ⟨rfl, ?_, rfl⟩
  simp only [cleanupAges, wrapInt64]
  norm_num

/-- C12, amended: no policy is rejected. For every interval, context and
container, whatever `MaxCap` and `MinCap` are, the first
`AsyncPurgeNotification` call sets the flag and launches the loop with the
arguments given. Every cycle of `purgeNotification` starts with the
`NotificationTotalCount` call; when the count succeeds with `total >= MaxCap`
the cycle goes on to the lookup at offset `MinCap`, stops there with an error
if the lookup fails, and otherwise issues the cleanup with the `int64` age
`now - Modified`; when the count succeeds with `total < MaxCap` the count is
the only call. A cycle returns an error only if a call it made on the storage
client failed. -/
theorem policy_is_not_validated {σ : Type} (interval : Int) (ctx : Nat) (dic : Container σ)
    (now : Int) (s : σ) :
    (AsyncPurgeNotification ⟨interval, ctx, dic⟩ (Process.init (Container σ))).onceDone = true ∧
    ((AsyncPurgeNotification ⟨interval, ctx, dic⟩ (Process.init (Container σ))).goroutines.map
      (fun g => (g.args.interval, g.args.ctx, g.status))) = [(interval, ctx, .running)] ∧
    (∃ res, (purgeNotification dic now s).calls.head? = some (.totalCount res)) ∧
    (∀ total, (dic.dbClient.NotificationTotalCount s).1 = .ok total →
      total < dic.config.MaxCap →
      (purgeNotification dic now s).calls = [.totalCount (.ok total)]) ∧
    (∀ total e, (dic.dbClient.NotificationTotalCount s).1 = .ok total →
      total ≥ dic.config.MaxCap →
      (dic.dbClient.LatestNotificationByOffset dic.config.MinCap
        (dic.dbClient.NotificationTotalCount s).2).1 = .error e →
      (purgeNotification dic now s).calls =
        [.totalCount (.ok total), .latestByOffset dic.config.MinCap (.error e)] ∧
      (purgeNotification dic now s).err.isSome = true) ∧
    (∀ total n, (dic.dbClient.NotificationTotalCount s).1 = .ok total →
      total ≥ dic.config.MaxCap →
      (dic.dbClient.LatestNotificationByOffset dic.config.MinCap
        (dic.dbClient.NotificationTotalCount s).2).1 = .ok n →
      (purgeNotification dic now s).calls =
        [.totalCount (.ok total), .latestByOffset dic.config.MinCap (.ok n),
          .cleanupByAge (wrapInt64 (now - n.Modified))
            (dic.dbClient.CleanupNotificationsByAge (wrapInt64 (now - n.Modified))
              (dic.dbClient.LatestNotificationByOffset dic.config.MinCap
                (dic.dbClient.NotificationTotalCount s).2).2).1] ∧
      cleanupAges (purgeNotification dic now s).calls = [wrapInt64 (now - n.Modified)]) ∧
    ((purgeNotification dic now s).err = none ∨
      ∃ c ∈ (purgeNotification dic now s).calls, c.failed = true) := by
  refine ⟨rfl, rfl, ?_, ?_, ?_, ?_, ?_⟩
  · simp only [purgeNotification]
    split
    · exact ⟨_, rfl⟩
    · split
      · split
        · exact ⟨_, rfl⟩
        · split <;> exact ⟨_, rfl⟩
      · exact ⟨_, rfl⟩
  · intro total hcount hlt
    rw [purge_eq_of_below dic now s total hcount hlt]
  · intro total e hcount hge hlatest
    rw [purge_eq_of_latest_error dic now s total e hcount hge hlatest]
    exact ⟨rfl, rfl⟩
  · intro total n hcount hge hlatest
    rw [purge_eq_of_latest_ok dic now s total n hcount hge hlatest]
    exact ⟨rfl, rfl⟩
  · simp only [purgeNotification]
    split
    · simp [Call.failed]
    · split
      · split
        · simp [Call.failed]
        · split <;> simp [Call.failed]
      · simp

/-- C12, amended, at the policy `MaxCap = 80`, `MinCap = 100` with interval
`-5`: the loop is launched, and a cycle that counts 90 records looks up offset
100 and issues the cleanup. -/
theorem policy_is_not_validated_witness :
    ((AsyncPurgeNotification
        ⟨-5, 1, (⟨scriptedClient (.ok 90) (fun _ => .ok ⟨"b", 2000⟩) (fun _ => none), ⟨80, 100⟩⟩ :
          Container (List Int))⟩
        (Process.init (Container (List Int)))).goroutines.map
          (fun g => (g.args.interval, g.args.ctx, g.status))) = [(-5, 1, .running)] ∧
    (purgeNotification ⟨scriptedClient (.ok 90) (fun _ => .ok ⟨"b", 2000⟩)
      (fun _ => none), ⟨80, 100⟩⟩ 7000 []).calls =
        [.totalCount (.ok 90), .latestByOffset 100 (.ok ⟨"b", 2000⟩),
          .cleanupByAge (wrapInt64 (7000 - 2000)) none] ∧
    cleanupAges (purgeNotification ⟨scriptedClient (.ok 90) (fun _ => .ok ⟨"b", 2000⟩)
      (fun _ => none), ⟨80, 100⟩⟩ 7000 []).calls = [wrapInt64 (7000 - 2000)] :=
  have h := policy_is_not_validated (-5) 1
    (⟨scriptedClient (.ok 90) (fun _ => .ok ⟨"b", 2000⟩) (fun _ => none), ⟨80, 100⟩⟩ :
      Container (List Int)) 7000 []
  ⟨h.2.1, h.2.2.2.2.2.1 90 ⟨"b", 2000⟩ rfl (by decide) rfl⟩

/-! ## The query operations -/

/-- C13: with an empty key, each of `NotificationsByCategory`,
`NotificationsByLabel`, `NotificationsByStatus`,
`NotificationsBySubscriptionName`, `NotificationById` and
`DeleteNotificationById` returns an error of kind `ContractInvalid`, no
notifications (the zero DTO for `NotificationById`), a zero total count, and
makes no call on the storage client, for every offset, limit and client. -/
theorem empty_key_is_contract_invalid {D σ : Type} [Inhabited D]
    (FromNotificationModelToDTO : Notification → D) (uuidParse : String → Option EdgeX)
    (dbClient : QueryDBClient σ) (offset limit : Int) (s : σ) :
    ((NotificationsByCategory FromNotificationModelToDTO dbClient offset limit "" s).err.map Kind
        = some KindContractInvalid ∧
      (NotificationsByCategory FromNotificationModelToDTO dbClient offset limit "" s).notifications
        = [] ∧
      (NotificationsByCategory FromNotificationModelToDTO dbClient offset limit "" s).totalCount = 0 ∧
      (NotificationsByCategory FromNotificationModelToDTO dbClient offset limit "" s).calls = []) ∧
    ((NotificationsByLabel FromNotificationModelToDTO dbClient offset limit "" s).err.map Kind
        = some KindContractInvalid ∧
      (NotificationsByLabel FromNotificationModelToDTO dbClient offset limit "" s).notifications
        = [] ∧
      (NotificationsByLabel FromNotificationModelToDTO dbClient offset limit "" s).totalCount = 0 ∧
      (NotificationsByLabel FromNotificationModelToDTO dbClient offset limit "" s).calls = []) ∧
    ((NotificationsByStatus FromNotificationModelToDTO dbClient offset limit "" s).err.map Kind
        = some KindContractInvalid ∧
      (NotificationsByStatus FromNotificationModelToDTO dbClient offset limit "" s).notifications
        = [] ∧
      (NotificationsByStatus FromNotificationModelToDTO dbClient offset limit "" s).totalCount = 0 ∧
      (NotificationsByStatus FromNotificationModelToDTO dbClient offset limit "" s).calls = []) ∧
    ((NotificationsBySubscriptionName FromNotificationModelToDTO dbClient offset limit "" s).err.map
        Kind = some KindContractInvalid ∧
      (NotificationsBySubscriptionName FromNotificationModelToDTO dbClient offset limit ""
        s).notifications = [] ∧
      (NotificationsBySubscriptionName FromNotificationModelToDTO dbClient offset limit ""
        s).totalCount = 0 ∧
      (NotificationsBySubscriptionName FromNotificationModelToDTO dbClient offset limit ""
        s).calls = []) ∧
    ((NotificationById FromNotificationModelToDTO uuidParse dbClient "" s).edgeXerr.map Kind
        = some KindContractInvalid ∧
      (NotificationById FromNotificationModelToDTO uuidParse dbClient "" s).notification = default ∧
      (NotificationById FromNotificationModelToDTO uuidParse dbClient "" s).calls = []) ∧
    ((DeleteNotificationById dbClient "" s).err.map Kind = some KindContractInvalid ∧
      (DeleteNotificationById dbClient "" s).calls = []) := by
  simp [NotificationsByCategory, NotificationsByLabel, NotificationsByStatus,
    NotificationsBySubscriptionName, NotificationById, DeleteNotificationById, NewCommonEdgeX,
    Kind]

/-- C13 on a client that holds two notifications: the operations with an
empty key fail with kind `ContractInvalid` and make no call. -/
theorem empty_key_is_contract_invalid_witness :
    (NotificationsByCategory (fun n => n.Id) (scriptedQueryClient [⟨"a", 1⟩, ⟨"b", 2⟩] 2 none)
      0 20 "" ()).err.map Kind = some "ContractInvalid" ∧
    (NotificationsByCategory (fun n => n.Id) (scriptedQueryClient [⟨"a", 1⟩, ⟨"b", 2⟩] 2 none)
      0 20 "" ()).calls = [] ∧
    (DeleteNotificationById (scriptedQueryClient [⟨"a", 1⟩, ⟨"b", 2⟩] 2 none) "" ()).calls = [] :=
  have h := empty_key_is_contract_invalid (fun n => n.Id) (fun _ => none)
    (scriptedQueryClient [⟨"a", 1⟩, ⟨"b", 2⟩] 2 none) 0 20 ()
  ⟨h.1.1, h.1.2.2.2, h.2.2.2.2.2.2⟩

/-- C14: for `NotificationsByCategory`, `NotificationsByLabel`,
`NotificationsByStatus` (with a non-empty key) and `NotificationsByTimeRange`:
the count query is issued only if the list query succeeded; if either query
fails the operation returns an error and no notifications; if both succeed it
returns no error, the count of the count query, and a list as long as the
model list whose element `i` is the DTO conversion of model `i`. -/
theorem list_operations_query_then_convert {D σ : Type}
    (FromNotificationModelToDTO : Notification → D) (dbClient : QueryDBClient σ)
    (offset limit start end_ : Int) (category label status : String) (s : σ)
    (hcategory : category ≠ "") (hlabel : label ≠ "") (hstatus : status ≠ "") :
    ListOpOutcome FromNotificationModelToDTO
      (dbClient.NotificationsByCategory offset limit category s)
      (dbClient.NotificationCountByCategory category)
      (NotificationsByCategory FromNotificationModelToDTO dbClient offset limit category s) ∧
    ListOpOutcome FromNotificationModelToDTO
      (dbClient.NotificationsByLabel offset limit label s)
      (dbClient.NotificationCountByLabel label)
      (NotificationsByLabel FromNotificationModelToDTO dbClient offset limit label s) ∧
    ListOpOutcome FromNotificationModelToDTO
      (dbClient.NotificationsByStatus offset limit status s)
      (dbClient.NotificationCountByStatus status)
      (NotificationsByStatus FromNotificationModelToDTO dbClient offset limit status s) ∧
    ListOpOutcome FromNotificationModelToDTO
      (dbClient.NotificationsByTimeRange start end_ offset limit s)
      (dbClient.NotificationCountByTimeRange start end_)
      (NotificationsByTimeRange FromNotificationModelToDTO dbClient start end_ offset limit s) := by
  refine ⟨?_, ?_, ?_, ?_⟩
  · unfold ListOpOutcome
    simp only [NotificationsByCategory, if_neg hcategory]
    generalize dbClient.NotificationsByCategory offset limit category s = la
    obtain ⟨a, s1⟩ := la
    cases a with
    | error e => simp [QueryCall.isCount]
    | ok models =>
      simp only
      generalize dbClient.NotificationCountByCategory category s1 = ca
      obtain ⟨⟨n, ce⟩, s2⟩ := ca
      cases ce <;> simp [QueryCall.isCount]
  · unfold ListOpOutcome
    simp only [NotificationsByLabel, if_neg hlabel]
    generalize dbClient.NotificationsByLabel offset limit label s = la
    obtain ⟨a, s1⟩ := la
    cases a with
    | error e => simp [QueryCall.isCount]
    | ok models =>
      simp only
      generalize dbClient.NotificationCountByLabel label s1 = ca
      obtain ⟨⟨n, ce⟩, s2⟩ := ca
      cases ce <;> simp [QueryCall.isCount]
  · unfold ListOpOutcome
    simp only [NotificationsByStatus, if_neg hstatus]
    generalize dbClient.NotificationsByStatus offset limit status s = la
    obtain ⟨a, s1⟩ := la
    cases a with
    | error e => simp [QueryCall.isCount]
    | ok models =>
      simp only
      generalize dbClient.NotificationCountByStatus status s1 = ca
      obtain ⟨⟨n, ce⟩, s2⟩ := ca
      cases ce <;> simp [QueryCall.isCount]
  · unfold ListOpOutcome
    simp only [NotificationsByTimeRange]
    generalize dbClient.NotificationsByTimeRange start end_ offset limit s = la
    obtain ⟨a, s1⟩ := la
    cases a with
    | error e => simp [QueryCall.isCount]
    | ok models =>
      simp only
      generalize dbClient.NotificationCountByTimeRange start end_ s1 = ca
      obtain ⟨⟨n, ce⟩, s2⟩ := ca
      cases ce <;> simp [QueryCall.isCount]

/-- C14 on a client that answers every list query with two models and every
count query with 7: `NotificationsByCategory` returns the two converted models
in order, the count 7 and no error. -/
theorem list_operations_query_then_convert_witness :
    (NotificationsByCategory (fun n => n.Id) (scriptedQueryClient [⟨"a", 1⟩, ⟨"b", 2⟩] 7 none)
      0 20 "c" ()).err = none ∧
    (NotificationsByCategory (fun n => n.Id) (scriptedQueryClient [⟨"a", 1⟩, ⟨"b", 2⟩] 7 none)
      0 20 "c" ()).totalCount = 7 ∧
    (NotificationsByCategory (fun n => n.Id) (scriptedQueryClient [⟨"a", 1⟩, ⟨"b", 2⟩] 7 none)
      0 20 "c" ()).notifications.length = 2 ∧
    (∀ i : Nat, (NotificationsByCategory (fun n => n.Id)
      (scriptedQueryClient [⟨"a", 1⟩, ⟨"b", 2⟩] 7 none) 0 20 "c" ()).notifications[i]? =
        (([⟨"a", 1⟩, ⟨"b", 2⟩] : List Notification)[i]?).map (fun n => n.Id)) :=
  have h := (list_operations_query_then_convert (fun n => n.Id)
    (scriptedQueryClient [⟨"a", 1⟩, ⟨"b", 2⟩] 7 none) 0 20 0 0 "c" "l" "NEW" ()
    (by decide) (by decide) (by decide)).1.2.2.2 [⟨"a", 1⟩, ⟨"b", 2⟩] rfl rfl
  ⟨h.1, h.2.1, h.2.2.1, h.2.2.2.1⟩

end Notifications
